import Mathlib

/-!
Verification of the compute core of the Mandelbrot viewer: the OpenCL escape-time
kernel, its coordinate mapper, smoothing transform, palette library and the
host-side viewer state, modelled shallowly over a linear ordered field
(instantiated at ℚ for executable checks and at ℝ where the claims involve
the transcendental functions sin, cos and log).
-/

set_option autoImplicit false

namespace Mandelbrot

universe u

section EscapeLoop

variable {α : Type u} [LinearOrderedField α]

/-- Escape-time loop of the `mandelbrot` OpenCL kernel.  Its
`while (x2 + y2 <= 4.0 && iter < max_iter)` is modelled with the remaining
iteration budget `fuel = max_iter - iter` as structural fuel; the body
performs, in the order used by the kernel, `y1 = 2*x1*y1 + y0; x1 = x2 - y2 + x0;
x2 = x1*x1; y2 = y1*y1; iter++`.  Since the update of `x1` reads only the
old `x2, y2` and the update of `y1` reads only the old `x1, y1`, the
sequential writes are equivalent to the simultaneous substitution used
here. -/
def mandelLoop (x0 y0 x1 y1 x2 y2 : α) (iter : ℕ) : ℕ → ℕ
  | 0 => iter
  | fuel + 1 =>
    if x2 + y2 ≤ 4 then
      mandelLoop x0 y0 (x2 - y2 + x0) (2 * x1 * y1 + y0)
        ((x2 - y2 + x0) * (x2 - y2 + x0)) ((2 * x1 * y1 + y0) * (2 * x1 * y1 + y0))
        (iter + 1) fuel
    else iter

/-- Escape-time evaluator: the kernel loop started from
`x1 = y1 = x2 = y2 = 0` and `iter = 0`. -/
def mandelbrotIter (x0 y0 : α) (maxIter : ℕ) : ℕ :=
  mandelLoop x0 y0 0 0 0 0 0 maxIter

/-- Modelled from the spec: the reference escape loop of §4.2, written with an
explicit iteration counter and cap exactly as in the specification pseudocode
(`while x2 + y2 <= 4.0 and iter < maxIterations`), recursing on the distance
`maxIter - iter`. -/
def specEscapeGo (x0 y0 x1 y1 x2 y2 : α) (iter maxIter : ℕ) : ℕ :=
  if h : x2 + y2 ≤ 4 ∧ iter < maxIter then
    specEscapeGo x0 y0 (x2 - y2 + x0) (2 * x1 * y1 + y0)
      ((x2 - y2 + x0) * (x2 - y2 + x0)) ((2 * x1 * y1 + y0) * (2 * x1 * y1 + y0))
      (iter + 1) maxIter
  else iter
termination_by maxIter - iter
decreasing_by
  have := h.2
  omega

/-- Modelled from the spec: the reference evaluator of §4.2, starting from the
all-zero state. -/
def specEscapeLoop (x0 y0 : α) (maxIter : ℕ) : ℕ :=
  specEscapeGo x0 y0 0 0 0 0 0 maxIter

theorem mandelLoop_le (x0 y0 : α) :
    ∀ (fuel : ℕ) (x1 y1 x2 y2 : α) (iter : ℕ),
      mandelLoop x0 y0 x1 y1 x2 y2 iter fuel ≤ iter + fuel := by
  intro fuel
  induction fuel with
  | zero => intro x1 y1 x2 y2 iter; simp [mandelLoop]
  | succ n ih =>
    intro x1 y1 x2 y2 iter
    rw [mandelLoop]
    by_cases hc : x2 + y2 ≤ 4
    · rw [if_pos hc]
      calc mandelLoop x0 y0 (x2 - y2 + x0) (2 * x1 * y1 + y0)
            ((x2 - y2 + x0) * (x2 - y2 + x0)) ((2 * x1 * y1 + y0) * (2 * x1 * y1 + y0))
            (iter + 1) n ≤ (iter + 1) + n := ih _ _ _ _ _
        _ = iter + (n + 1) := by omega
    · rw [if_neg hc]; omega

theorem mandelLoop_ge (x0 y0 : α) :
    ∀ (fuel : ℕ) (x1 y1 x2 y2 : α) (iter : ℕ),
      iter ≤ mandelLoop x0 y0 x1 y1 x2 y2 iter fuel := by
  intro fuel
  induction fuel with
  | zero => intro x1 y1 x2 y2 iter; simp [mandelLoop]
  | succ n ih =>
    intro x1 y1 x2 y2 iter
    rw [mandelLoop]
    by_cases hc : x2 + y2 ≤ 4
    · rw [if_pos hc]
      exact le_trans (Nat.le_succ iter) (ih _ _ _ _ _)
    · rw [if_neg hc]

theorem mandelLoop_eq_specEscapeGo (x0 y0 : α) :
    ∀ (fuel : ℕ) (x1 y1 x2 y2 : α) (iter : ℕ),
      mandelLoop x0 y0 x1 y1 x2 y2 iter fuel =
        specEscapeGo x0 y0 x1 y1 x2 y2 iter (iter + fuel) := by
  intro fuel
  induction fuel with
  | zero =>
    intro x1 y1 x2 y2 iter
    rw [mandelLoop, specEscapeGo]
    simp
  | succ n ih =>
    intro x1 y1 x2 y2 iter
    rw [mandelLoop, specEscapeGo]
    by_cases hc : x2 + y2 ≤ 4
    · rw [if_pos hc, dif_pos ⟨hc, by omega⟩]
      rw [ih]
      have : iter + 1 + n = iter + (n + 1) := by omega
      rw [this]
    · rw [if_neg hc, dif_neg]
      intro hcontra
      exact hc hcontra.1

theorem mandelLoop_zero_state {α : Type u} [LinearOrderedField α] :
    ∀ (fuel iter : ℕ), mandelLoop (0 : α) 0 0 0 0 0 iter fuel = iter + fuel := by
  intro fuel
  induction fuel with
  | zero => intro iter; simp [mandelLoop]
  | succ n ih =>
    intro iter
    rw [mandelLoop, if_pos (by norm_num : (0 : α) + 0 ≤ 4)]
    simp only [sub_self, zero_add, add_zero, mul_zero, zero_mul]
    rw [ih]
    omega

end EscapeLoop

section Coordinates

variable {α : Type u} [LinearOrderedField α]

/-- View scale of `computeFrame`: `scale = 4.0 / zoom`. -/
def scaleOf (zoom : α) : α := 4 / zoom

/-- Aspect ratio of `computeFrame`: `width / height` in floating division. -/
def aspectRatioOf (width height : ℤ) : α := (width : α) / (height : α)

/-- Real coordinate of column `x` as computed by `computeFrame`:
`xArray[x] = centerX + (x - width/2.0) * scale / width * aspectRatio`. -/
def xCoordinate (width height : ℤ) (centerX zoom : α) (x : ℤ) : α :=
  centerX + ((x : α) - (width : α) / 2) * scaleOf zoom / (width : α) * aspectRatioOf width height

/-- Imaginary coordinate of row `y` as computed by `computeFrame`:
`yArray[y] = centerY + (y - height/2.0) * scale / height`. -/
def yCoordinate (height : ℤ) (centerY zoom : α) (y : ℤ) : α :=
  centerY + ((y : α) - (height : α) / 2) * scaleOf zoom / (height : α)

end Coordinates

/-- C1: for every input point and every positive iteration cap, the escape-time
evaluator (a total function, hence terminating) returns a count `iter` with
`0 ≤ iter ≤ maxIterations` (the lower bound holds by the ℕ return type), and
this count equals the result of the reference loop of the specification. -/
theorem escape_evaluator_bounded_and_matches_spec (x0 y0 : ℚ) (N : ℕ) (hN : 0 < N) :
    mandelbrotIter x0 y0 N ≤ N ∧ mandelbrotIter x0 y0 N = specEscapeLoop x0 y0 N := by
  constructor
  · have h := mandelLoop_le x0 y0 N 0 0 0 0 0
    simpa [mandelbrotIter] using h
  · have h := mandelLoop_eq_specEscapeGo x0 y0 N 0 0 0 0 0
    simpa [mandelbrotIter, specEscapeLoop] using h

/-- Witness for C1 at the concrete input `(1/2, 1/2)` with cap 3. -/
theorem escape_evaluator_bounded_and_matches_spec_witness :
    0 < 3 ∧
      (mandelbrotIter (1/2 : ℚ) (1/2) 3 ≤ 3 ∧
        mandelbrotIter (1/2 : ℚ) (1/2) 3 = specEscapeLoop (1/2 : ℚ) (1/2) 3) :=
  ⟨by decide, escape_evaluator_bounded_and_matches_spec (1/2) (1/2) 3 (by decide)⟩

/-- C2: for every positive cap `N`, the escape-time evaluator at the interior
point `(0, 0)` returns exactly `N`: the orbit stays at the origin, so the
bailout test never fires and the loop runs its full budget. -/
theorem interior_origin_full_count (N : ℕ) (hN : 0 < N) :
    mandelbrotIter (0 : ℚ) 0 N = N := by
  have h := mandelLoop_zero_state (α := ℚ) N 0
  simpa [mandelbrotIter] using h

/-- Witness for C2 at cap 5. -/
theorem interior_origin_full_count_witness :
    0 < 5 ∧ mandelbrotIter (0 : ℚ) 0 5 = 5 :=
  ⟨by decide, interior_origin_full_count 5 (by decide)⟩

/-- C3: the exact center column and row (`2*x = width`, `2*y = height`) map to
exactly `(centerX, centerY)`: the offset factor vanishes identically, for every
positive resolution and zoom. -/
theorem center_pixel_maps_to_center (width height x y : ℤ) (centerX centerY zoom : ℚ)
    (hw : 0 < width) (hh : 0 < height) (hz : 0 < zoom)
    (hx : 2 * x = width) (hy : 2 * y = height) :
    xCoordinate width height centerX zoom x = centerX ∧
      yCoordinate height centerY zoom y = centerY := by
  have hx' : (x : ℚ) - (width : ℚ) / 2 = 0 := by
    have : ((2 * x : ℤ) : ℚ) = ((width : ℤ) : ℚ) := by rw [hx]
    push_cast at this
    linarith
  have hy' : (y : ℚ) - (height : ℚ) / 2 = 0 := by
    have : ((2 * y : ℤ) : ℚ) = ((height : ℤ) : ℚ) := by rw [hy]
    push_cast at this
    linarith
  constructor
  · rw [xCoordinate, hx', zero_mul, zero_div, zero_mul, add_zero]
  · rw [yCoordinate, hy', zero_mul, zero_div, add_zero]

/-- Witness for C3 at width 4, height 2, center pixel (2, 1). -/
theorem center_pixel_maps_to_center_witness :
    (0 < (4 : ℤ) ∧ 0 < (2 : ℤ) ∧ 0 < (3 : ℚ) ∧ 2 * 2 = (4 : ℤ) ∧ 2 * 1 = (2 : ℤ)) ∧
      (xCoordinate 4 2 (-1/2 : ℚ) 3 2 = -1/2 ∧ yCoordinate 2 (0 : ℚ) 3 1 = 0) :=
  ⟨⟨by decide, by decide, by norm_num, by decide, by decide⟩,
    center_pixel_maps_to_center 4 2 2 1 (-1/2) 0 3 (by decide) (by decide) (by norm_num)
      (by decide) (by decide)⟩

section Palettes

variable {α : Type u} [LinearOrderedField α] [FloorRing α]

/-- Truncation toward zero, the rounding used by the C cast to an integer and
by fmod: the floor for nonnegative arguments, the ceiling for negative ones. -/
def truncToward0 (x : α) : ℤ := if 0 ≤ x then ⌊x⌋ else ⌈x⌉

/-- C `fmod(x, 1.0)`: `x` minus `x` truncated toward zero.  The result has the
sign of `x` and absolute value below 1. -/
def fmod1 (x : α) : α := x - (truncToward0 x : α)

variable (msin mcos mlog : α → α) (mpi : α)

/-- Kernel `rainbow_palette`: phase `fmod(norm_iter * 3.0 + shift, 1.0)`,
angle `phase * 2 * pi`, three sine waves offset by thirds of a turn, each
scaled by 1.5 and clamped above at 1. -/
def rainbow_palette (norm_iter shift : α) : α × α × α :=
  (min ((msin (fmod1 (norm_iter * 3 + shift) * 2 * mpi) * 0.5 + 0.5) * 1.5) 1,
   min ((msin (fmod1 (norm_iter * 3 + shift) * 2 * mpi + 2 * mpi / 3) * 0.5 + 0.5) * 1.5) 1,
   min ((msin (fmod1 (norm_iter * 3 + shift) * 2 * mpi + 4 * mpi / 3) * 0.5 + 0.5) * 1.5) 1)

/-- Kernel `fire_palette`: phase `fmod(norm_iter + shift, 1.0)`, red
`min(phase*2, 1)`, green `max(0, min((phase - 0.3)*2, 1))`, blue 0. -/
def fire_palette (norm_iter shift : α) : α × α × α :=
  (min (fmod1 (norm_iter + shift) * 2) 1,
   max 0 (min ((fmod1 (norm_iter + shift) - 0.3) * 2) 1),
   0)

/-- Kernel `electric_blue`: red 0, green `min(phase*2, 1)`, blue
`min(phase*2.5, 1)`. -/
def electric_blue (norm_iter shift : α) : α × α × α :=
  (0, min (fmod1 (norm_iter + shift) * 2) 1, min (fmod1 (norm_iter + shift) * 2.5) 1)

/-- Kernel `twilight_palette`: red `min(phase*1.5, 1)`, green 0, blue
`min(phase*2, 1)`. -/
def twilight_palette (norm_iter shift : α) : α × α × α :=
  (min (fmod1 (norm_iter + shift) * 1.5) 1, 0, min (fmod1 (norm_iter + shift) * 2) 1)

/-- Kernel `neon_palette`: sine and cosine waves of `phase * pi`, each mapped
through `* 0.5 + 0.5`. -/
def neon_palette (norm_iter shift : α) : α × α × α :=
  (msin (fmod1 (norm_iter + shift) * mpi) * 0.5 + 0.5,
   mcos (fmod1 (norm_iter + shift) * mpi) * 0.5 + 0.5,
   msin (fmod1 (norm_iter + shift) * mpi + mpi / 3) * 0.5 + 0.5)

/-- Kernel `vintage_sepia`: red `min(phase*1.2, 1)`, green `min(phase*1.1, 1)`,
blue `min(phase*0.9, 1)`. -/
def vintage_sepia (norm_iter shift : α) : α × α × α :=
  (min (fmod1 (norm_iter + shift) * 1.2) 1,
   min (fmod1 (norm_iter + shift) * 1.1) 1,
   min (fmod1 (norm_iter + shift) * 0.9) 1)

/-- Kernel `apply_log_smooth`: `log(val * 0.5 + 0.5) / log(1.5)`. -/
def apply_log_smooth (val : α) : α := mlog (val * 0.5 + 0.5) / mlog 1.5

/-- Kernel normalization `(double)iter / max_iter`. -/
def norm_iter (iter maxIter : ℕ) : α := (iter : α) / (maxIter : α)

/-- Palette dispatch of the kernel: the `switch (color_mode)` with cases 0-5
and a default of black. -/
def kernelColor (mode : ℤ) (n shift : α) : α × α × α :=
  if mode = 0 then rainbow_palette msin mpi n shift
  else if mode = 1 then fire_palette n shift
  else if mode = 2 then electric_blue n shift
  else if mode = 3 then twilight_palette n shift
  else if mode = 4 then neon_palette msin mcos mpi n shift
  else if mode = 5 then vintage_sepia n shift
  else (0, 0, 0)

/-- Byte conversion `(uchar)(channel * 255.0)` of the kernel, modelled as
truncation toward zero of the scaled channel (the defined behaviour for the
in-range channels the kernel produces). -/
def toByte (x : α) : ℤ := truncToward0 (x * 255)

/-- Per-pixel RGB byte triple written by the kernel: escaped pixels
(`iter < max_iter`) go through smoothing, palette dispatch and byte
conversion; non-escaped pixels are written as literal zero bytes. -/
def kernelPixelBytes (iter maxIter : ℕ) (mode : ℤ) (shift : α) : ℤ × ℤ × ℤ :=
  if iter < maxIter then
    (toByte (kernelColor msin mcos mpi mode (apply_log_smooth mlog (norm_iter iter maxIter)) shift).1,
     toByte (kernelColor msin mcos mpi mode (apply_log_smooth mlog (norm_iter iter maxIter)) shift).2.1,
     toByte (kernelColor msin mcos mpi mode (apply_log_smooth mlog (norm_iter iter maxIter)) shift).2.2)
  else (0, 0, 0)

/-- Predicate on an RGB triple: every channel lies in the closed unit
interval. -/
def channelsIn01 (c : α × α × α) : Prop :=
  (0 ≤ c.1 ∧ c.1 ≤ 1) ∧ (0 ≤ c.2.1 ∧ c.2.1 ≤ 1) ∧ (0 ≤ c.2.2 ∧ c.2.2 ≤ 1)

end Palettes

/-- C4: a pixel whose iteration count equals the cap bypasses smoothing and
palette dispatch entirely — whatever functions play the roles of sine, cosine,
log and pi — and is written as the literal byte triple (0, 0, 0). -/
theorem non_escaped_pixel_black {α : Type u} [LinearOrderedField α] [FloorRing α]
    (msin mcos mlog : α → α) (mpi : α) (N : ℕ) (mode : ℤ) (shift : α) :
    kernelPixelBytes msin mcos mlog mpi N N mode shift = (0, 0, 0) := by
  simp [kernelPixelBytes]

/-- C6: an unknown palette selector (outside 0..5) does not fail: the default
branch of the dispatch colors every escaped pixel black. -/
theorem unknown_palette_defaults_to_black {α : Type u} [LinearOrderedField α] [FloorRing α]
    (msin mcos mlog : α → α) (mpi : α) (iter maxIter : ℕ) (mode : ℤ) (shift : α)
    (hmode : mode ∉ ({0, 1, 2, 3, 4, 5} : Finset ℤ)) (hiter : iter < maxIter) :
    kernelPixelBytes msin mcos mlog mpi iter maxIter mode shift = (0, 0, 0) := by
  simp only [Finset.mem_insert, Finset.mem_singleton] at hmode
  push_neg at hmode
  obtain ⟨h0, h1, h2, h3, h4, h5⟩ := hmode
  rw [kernelPixelBytes, if_pos hiter, kernelColor,
    if_neg h0, if_neg h1, if_neg h2, if_neg h3, if_neg h4, if_neg h5]
  simp [toByte, truncToward0]

/-- Witness for C6 with selector 7 on the escaped pixel count 1 of 2. -/
theorem unknown_palette_defaults_to_black_witness :
    ((7 : ℤ) ∉ ({0, 1, 2, 3, 4, 5} : Finset ℤ) ∧ (1 : ℕ) < 2) ∧
      kernelPixelBytes (fun x : ℚ => x) (fun x => x) (fun x => x) 3 1 2 7 0 = (0, 0, 0) :=
  ⟨⟨by decide, by decide⟩,
    unknown_palette_defaults_to_black (fun x : ℚ => x) (fun x => x) (fun x => x) 3 1 2 7 0
      (by decide) (by decide)⟩

theorem fmod1_mem {α : Type u} [LinearOrderedField α] [FloorRing α] {x : α} (hx : 0 ≤ x) :
    0 ≤ fmod1 x ∧ fmod1 x < 1 := by
  rw [fmod1, truncToward0, if_pos hx]
  have hf : x - (⌊x⌋ : α) = Int.fract x := rfl
  rw [hf]
  exact ⟨Int.fract_nonneg x, Int.fract_lt_one x⟩

theorem clamp01_mem {α : Type u} [LinearOrderedField α] {x : α} (hx : 0 ≤ x) :
    0 ≤ min x 1 ∧ min x 1 ≤ 1 :=
  ⟨le_min hx zero_le_one, min_le_right x 1⟩

theorem sin_wave_mem (t : ℝ) :
    0 ≤ Real.sin t * 0.5 + 0.5 ∧ Real.sin t * 0.5 + 0.5 ≤ 1 := by
  have h1 := Real.neg_one_le_sin t
  have h2 := Real.sin_le_one t
  constructor <;> nlinarith

theorem cos_wave_mem (t : ℝ) :
    0 ≤ Real.cos t * 0.5 + 0.5 ∧ Real.cos t * 0.5 + 0.5 ≤ 1 := by
  have h1 := Real.neg_one_le_cos t
  have h2 := Real.cos_le_one t
  constructor <;> nlinarith

/-- C5 counterexample: the fire palette at normIter 1/5 with colorShift -1/2
computes phase fmod(-3/10, 1) = -3/10 and the red channel min(-3/5, 1) = -3/5,
which is negative. -/
theorem palette_unit_range_counterexample :
    ¬ (0 ≤ (fire_palette ((1 : ℚ) / 5) (-(1 / 2))).1 ∧
        (fire_palette ((1 : ℚ) / 5) (-(1 / 2))).1 ≤ 1) := by
  have hc : ⌈(-(3 / 10) : ℚ)⌉ = 0 := by
    rw [Int.ceil_eq_iff]
    constructor <;> norm_num
  norm_num [fire_palette, fmod1, truncToward0, hc]

/-- C5 (amended): for every nonnegative normIter and colorShift — covering in
particular the sampled ranges normIter ∈ [0,1) and colorShift ∈ [0, 2π) — each
of the six palette functions, taken with the actual sine, cosine and pi,
returns R, G and B channels inside [0, 1]. -/
theorem palette_channels_unit_range (n s : ℝ) (hn : 0 ≤ n) (hs : 0 ≤ s) :
    channelsIn01 (rainbow_palette Real.sin Real.pi n s) ∧
      channelsIn01 (fire_palette n s) ∧
      channelsIn01 (electric_blue n s) ∧
      channelsIn01 (twilight_palette n s) ∧
      channelsIn01 (neon_palette Real.sin Real.cos Real.pi n s) ∧
      channelsIn01 (vintage_sepia n s) := by
  have hns : (0 : ℝ) ≤ n + s := add_nonneg hn hs
  obtain ⟨hp0, hp1⟩ := fmod1_mem hns
  simp only [channelsIn01, rainbow_palette, fire_palette, electric_blue, twilight_palette,
    neon_palette, vintage_sepia]
  refine ⟨⟨?_, ?_, ?_⟩, ⟨?_, ?_, ?_⟩, ⟨?_, ?_, ?_⟩, ⟨?_, ?_, ?_⟩, ⟨?_, ?_, ?_⟩, ⟨?_, ?_, ?_⟩⟩
  · exact clamp01_mem (mul_nonneg (sin_wave_mem _).1 (by norm_num))
  · exact clamp01_mem (mul_nonneg (sin_wave_mem _).1 (by norm_num))
  · exact clamp01_mem (mul_nonneg (sin_wave_mem _).1 (by norm_num))
  · exact clamp01_mem (mul_nonneg hp0 (by norm_num))
  · exact ⟨le_max_left _ _, max_le zero_le_one (min_le_right _ _)⟩
  · exact ⟨le_refl 0, zero_le_one⟩
  · exact ⟨le_refl 0, zero_le_one⟩
  · exact clamp01_mem (mul_nonneg hp0 (by norm_num))
  · exact clamp01_mem (mul_nonneg hp0 (by norm_num))
  · exact clamp01_mem (mul_nonneg hp0 (by norm_num))
  · exact ⟨le_refl 0, zero_le_one⟩
  · exact clamp01_mem (mul_nonneg hp0 (by norm_num))
  · exact sin_wave_mem _
  · exact cos_wave_mem _
  · exact sin_wave_mem _
  · exact clamp01_mem (mul_nonneg hp0 (by norm_num))
  · exact clamp01_mem (mul_nonneg hp0 (by norm_num))
  · exact clamp01_mem (mul_nonneg hp0 (by norm_num))

/-- Witness for the amended C5 at normIter 1/2, colorShift 1/4. -/
theorem palette_channels_unit_range_witness :
    (0 ≤ (1 / 2 : ℝ) ∧ 0 ≤ (1 / 4 : ℝ)) ∧
      (channelsIn01 (rainbow_palette Real.sin Real.pi (1 / 2 : ℝ) (1 / 4)) ∧
        channelsIn01 (fire_palette (1 / 2 : ℝ) (1 / 4)) ∧
        channelsIn01 (electric_blue (1 / 2 : ℝ) (1 / 4)) ∧
        channelsIn01 (twilight_palette (1 / 2 : ℝ) (1 / 4)) ∧
        channelsIn01 (neon_palette Real.sin Real.cos Real.pi (1 / 2 : ℝ) (1 / 4)) ∧
        channelsIn01 (vintage_sepia (1 / 2 : ℝ) (1 / 4))) :=
  ⟨⟨by norm_num, by norm_num⟩,
    palette_channels_unit_range (1 / 2) (1 / 4) (by norm_num) (by norm_num)⟩

/-- C7: with the actual logarithm, the composed smoothing transform
`iter ↦ log((iter/maxIterations) * 0.5 + 0.5) / log(1.5)` is strictly
increasing in `iter` over the open range `(0, maxIterations)`. -/
theorem smoothing_strictly_increasing (N i j : ℕ) (hi : 0 < i) (hij : i < j) (hj : j < N) :
    apply_log_smooth Real.log (norm_iter i N) < apply_log_smooth Real.log (norm_iter j N) := by
  have hN : (0 : ℝ) < (N : ℝ) := by
    have : 0 < N := lt_trans (lt_trans hi hij) hj
    exact_mod_cast this
  have ha : (0 : ℝ) < (i : ℝ) / (N : ℝ) := div_pos (by exact_mod_cast hi) hN
  have hab : (i : ℝ) / (N : ℝ) < (j : ℝ) / (N : ℝ) :=
    (div_lt_div_iff_of_pos_right hN).mpr (by exact_mod_cast hij)
  rw [norm_iter, norm_iter, apply_log_smooth, apply_log_smooth]
  have hlog : (0 : ℝ) < Real.log 1.5 := Real.log_pos (by norm_num)
  apply (div_lt_div_iff_of_pos_right hlog).mpr
  apply Real.log_lt_log
  · nlinarith
  · nlinarith

/-- Witness for C7 at cap 4, comparing counts 1 and 2. -/
theorem smoothing_strictly_increasing_witness :
    ((0 : ℕ) < 1 ∧ (1 : ℕ) < 2 ∧ (2 : ℕ) < 4) ∧
      apply_log_smooth Real.log (norm_iter 1 4) < apply_log_smooth Real.log (norm_iter 2 4) :=
  ⟨⟨by decide, by decide, by decide⟩,
    smoothing_strictly_increasing 4 1 2 (by decide) (by decide) (by decide)⟩

/-- C8 counterexample: the raw count 0 satisfies `0 ≤ iter < maxIterations`
for `maxIterations = 1`, yet its normalization `0 / 1 = 0` does not lie in the
open interval `(0, 1)`. -/
theorem norm_iter_open_interval_counterexample :
    ¬ (0 < (norm_iter 0 1 : ℚ) ∧ (norm_iter 0 1 : ℚ) < 1) := by
  rw [norm_iter]
  norm_num

theorem one_le_mandelbrotIter (x0 y0 : ℚ) (N : ℕ) (hN : 0 < N) :
    1 ≤ mandelbrotIter x0 y0 N := by
  obtain ⟨m, rfl⟩ : ∃ m, N = m + 1 := ⟨N - 1, by omega⟩
  rw [mandelbrotIter, mandelLoop, if_pos (by norm_num : (0 : ℚ) + 0 ≤ 4)]
  have h := mandelLoop_ge x0 y0 m (0 - 0 + x0) (2 * 0 * 0 + y0)
    ((0 - 0 + x0) * (0 - 0 + x0)) ((2 * 0 * 0 + y0) * (2 * 0 * 0 + y0)) (0 + 1)
  simpa using h

/-- C8 (amended): the counts actually handed to the smoothing transform are
the evaluator outputs with `iter < maxIterations` for `maxIterations > 0`;
those are always at least 1 — the loop body runs at least once — and for them
`normIter = iter / maxIterations` lies in the open interval `(0, 1)`. -/
theorem norm_iter_of_escape_in_open_interval (x0 y0 : ℚ) (N : ℕ) (hN : 0 < N)
    (hesc : mandelbrotIter x0 y0 N < N) :
    0 < (norm_iter (mandelbrotIter x0 y0 N) N : ℚ) ∧
      (norm_iter (mandelbrotIter x0 y0 N) N : ℚ) < 1 := by
  have h1 : 1 ≤ mandelbrotIter x0 y0 N := one_le_mandelbrotIter x0 y0 N hN
  rw [norm_iter]
  constructor
  · apply div_pos
    · exact_mod_cast h1
    · exact_mod_cast hN
  · rw [div_lt_one (by exact_mod_cast hN : (0 : ℚ) < (N : ℚ))]
    exact_mod_cast hesc

/-- Witness for the amended C8 at the escaping point `(3, 0)` with cap 2. -/
theorem norm_iter_of_escape_in_open_interval_witness :
    (0 < 2 ∧ mandelbrotIter (3 : ℚ) 0 2 < 2) ∧
      (0 < (norm_iter (mandelbrotIter (3 : ℚ) 0 2) 2 : ℚ) ∧
        (norm_iter (mandelbrotIter (3 : ℚ) 0 2) 2 : ℚ) < 1) :=
  ⟨⟨by decide, by norm_num [mandelbrotIter, mandelLoop]⟩,
    norm_iter_of_escape_in_open_interval 3 0 2 (by decide)
      (by norm_num [mandelbrotIter, mandelLoop])⟩

/-- View-state fields of the `MandelbrotViewer` engine that the constructor
and the setters touch.  The image and device buffers are left abstract: no
operation modelled here reads them back into these fields. -/
structure ViewerState where
  width : ℤ
  height : ℤ
  maxIterations : ℤ
  colorMode : ℤ
  colorShift : ℚ

/-- Constructor `MandelbrotViewer(w, h, maxIter)`: stores the three arguments
verbatim and initializes `colorMode = 0`, `colorShift = 0.0`. -/
def ViewerState.construct (w h maxIter : ℤ) : ViewerState :=
  { width := w, height := h, maxIterations := maxIter, colorMode := 0, colorShift := 0 }

/-- Setter `setMaxIterations`: stores its argument verbatim, with no
validation. -/
def ViewerState.setMaxIterations (v : ViewerState) (maxIter : ℤ) : ViewerState :=
  { v with maxIterations := maxIter }

/-- Setter `setColorMode`: stores its argument verbatim. -/
def ViewerState.setColorMode (v : ViewerState) (mode : ℤ) : ViewerState :=
  { v with colorMode := mode }

/-- Setter `setColorShift`: stores its argument verbatim. -/
def ViewerState.setColorShift (v : ViewerState) (shift : ℚ) : ViewerState :=
  { v with colorShift := shift }

/-- Effect of `computeFrame` on the view-state fields: none.  The method
recomputes the coordinate arrays and the image buffers but never assigns
`width`, `height`, `maxIterations`, `colorMode` or `colorShift`. -/
def ViewerState.computeFrameFields (v : ViewerState) (centerX centerY zoom : ℚ) : ViewerState :=
  v

/-- C9 counterexample: starting from a live engine with `maxIterations = 100`,
the operation `setMaxIterations(-5)` stores `-5` unvalidated, so the invariant
`maxIterations > 0` is not preserved by every operation. -/
theorem max_iterations_invariant_counterexample :
    ¬ (0 < ((ViewerState.construct 800 600 100).setMaxIterations (-5)).maxIterations) := by
  decide

/-- C9 (amended): the engine stores `maxIterations` verbatim and never
validates it.  The invariant `maxIterations > 0` holds after construction when
the constructor argument is positive, is preserved by `setColorMode`,
`setColorShift` and `computeFrame` unconditionally, and is preserved by
`setMaxIterations` exactly when its (otherwise arbitrary) argument is
positive. -/
theorem max_iterations_invariant_amended (w h m k mode : ℤ) (sh cx cy zm : ℚ)
    (v : ViewerState) (hm : 0 < m) (hk : 0 < k) (hv : 0 < v.maxIterations) :
    0 < (ViewerState.construct w h m).maxIterations ∧
      0 < (v.setMaxIterations k).maxIterations ∧
      0 < (v.setColorMode mode).maxIterations ∧
      0 < (v.setColorShift sh).maxIterations ∧
      0 < (v.computeFrameFields cx cy zm).maxIterations :=
  ⟨hm, hk, hv, hv, hv⟩

/-- Witness for the amended C9 on a freshly constructed engine. -/
theorem max_iterations_invariant_amended_witness :
    (0 < (100 : ℤ) ∧ 0 < (250 : ℤ) ∧
        0 < (ViewerState.construct 800 600 100).maxIterations) ∧
      (0 < (ViewerState.construct 800 600 100).maxIterations ∧
        0 < ((ViewerState.construct 800 600 100).setMaxIterations 250).maxIterations ∧
        0 < ((ViewerState.construct 800 600 100).setColorMode 2).maxIterations ∧
        0 < ((ViewerState.construct 800 600 100).setColorShift (1/2)).maxIterations ∧
        0 < ((ViewerState.construct 800 600 100).computeFrameFields 0 0 1).maxIterations) :=
  ⟨⟨by decide, by decide, by decide⟩,
    max_iterations_invariant_amended 800 600 100 250 2 (1/2) 0 0 1
      (ViewerState.construct 800 600 100) (by decide) (by decide) (by decide)⟩

/-- Column derived by the kernel from the global id: `x = gid % width`. -/
def gidX (gid width : ℕ) : ℕ := gid % width

/-- Row derived by the kernel from the global id: `y = gid / width`. -/
def gidY (gid width : ℕ) : ℕ := gid / width

/-- Base offset of the RGB bytes of a pixel: `idx = gid * 3`. -/
def rgbBase (gid : ℕ) : ℕ := gid * 3

/-- C10: for every global pixel id below `width * height`, the derived column
and row are in range — so the early-return bounds guard of the kernel can
never fire — and the iteration write at `gid` and the three RGB writes at
`gid*3`, `gid*3 + 1`, `gid*3 + 2` stay below the buffer lengths
`width * height` and `3 * width * height`. -/
theorem kernel_writes_in_bounds (width height gid : ℕ)
    (hw : 0 < width) (hh : 0 < height) (hg : gid < width * height) :
    gidX gid width < width ∧ gidY gid width < height ∧
      ¬ (width ≤ gidX gid width ∨ height ≤ gidY gid width) ∧
      gid < width * height ∧
      rgbBase gid < 3 * (width * height) ∧
      rgbBase gid + 1 < 3 * (width * height) ∧
      rgbBase gid + 2 < 3 * (width * height) := by
  have hx : gidX gid width < width := Nat.mod_lt gid hw
  have hy : gidY gid width < height := by
    rw [gidY, Nat.div_lt_iff_lt_mul hw]
    calc gid < width * height := hg
      _ = height * width := Nat.mul_comm width height
  refine ⟨hx, hy, ?_, hg, ?_, ?_, ?_⟩
  · push_neg
    exact ⟨hx, hy⟩
  all_goals
    rw [rgbBase]
    omega

/-- Witness for C10 at resolution 2 by 2 with the last pixel id 3. -/
theorem kernel_writes_in_bounds_witness :
    (0 < 2 ∧ 0 < 2 ∧ 3 < 2 * 2) ∧
      (gidX 3 2 < 2 ∧ gidY 3 2 < 2 ∧
        ¬ (2 ≤ gidX 3 2 ∨ 2 ≤ gidY 3 2) ∧
        3 < 2 * 2 ∧
        rgbBase 3 < 3 * (2 * 2) ∧
        rgbBase 3 + 1 < 3 * (2 * 2) ∧
        rgbBase 3 + 2 < 3 * (2 * 2)) :=
  ⟨⟨by decide, by decide, by decide⟩,
    kernel_writes_in_bounds 2 2 3 (by decide) (by decide) (by decide)⟩

end Mandelbrot
